import Mathlib

/-!
Verification development for the flowpipeline repository (KIT-CERT/flowpipeline).

Shallow embedding of the segments and helpers that the claims concern:
* the `protomap` segment and `utils/iana.go`,
* the `lumberjack` output segment (`New` option parsing, the per-worker
  batching loop with its timer discipline, and the run-level accounting
  of barrier signals and channel closes),
* the `goflow` collector segment (`New` validation and the `Run` select loop),
* the ECS document construction and its Go `encoding/json` struct tags.

Go machine integers are modelled as `Nat`/`Int` with explicit wrapping where
overflow matters; Go runtime panics (index out of range) and fatal
configuration errors are modelled with `Option`/sum-like result types.
-/

namespace Flowpipeline

/-- The subset of the `pb.EnrichedFlow` record used by the claims.
Unsigned 64/32-bit fields are `Nat` (values taken modulo 2^w where wrapping
matters). -/
structure Flow where
  Proto : Nat := 0
  ProtoName : String := ""
  TimeFlowStartMs : Nat := 0
  TimeFlowEndMs : Nat := 0
  TimeFlowStartNs : Nat := 0
  TimeFlowEndNs : Nat := 0
  deriving Repr, DecidableEq

/-! ## utils/iana.go -/

/-- `const largestIanaProtoNameIndex = 256` (utils/iana.go line 12). -/
def largestIanaProtoNameIndex : Nat := 256

/-- The two lookup arrays are declared `[largestIanaProtoNameIndex]string`,
i.e. they have 256 entries, valid indices 0..255. -/
def ianaArrayLength : Nat := 256

/-- Modelled from the spec: the embedded CSV `res/iana/protocol-numbers-1.csv`
is not included under `src/`; the rows here are the entries the spec and the
repository's tests exercise (6 → "TCP"; 68 has an empty name column and the
description "any distributed file system"; 255 → "Reserved"; 0 → "HOPOPT";
1 → "ICMP"; 58 → "IPv6-ICMP"; 222 is absent from the table).
Each row is (number, name column, description column). -/
def ianaCSVRows : List (Nat × String × String) :=
  [ (0, "HOPOPT", "IPv6 Hop-by-Hop Option"),
    (1, "ICMP", "Internet Control Message"),
    (6, "TCP", "Transmission Control"),
    (58, "IPv6-ICMP", "ICMP for IPv6"),
    (68, "", "any distributed file system"),
    (255, "Reserved", "") ]

/-- Content of `IanaProtocolNumberNames` after `init` (utils/iana.go lines
24-50): the name column when non-empty, otherwise the description column;
array entries never written stay at the zero value `""`. -/
def IanaProtocolNumberNames (i : Nat) : String :=
  match ianaCSVRows.find? (fun r => r.1 = i) with
  | some r => if r.2.1 ≠ "" then r.2.1 else r.2.2
  | none => ""

/-- `IanaProtocolNumberToName` (utils/iana.go lines 52-58): returns `""` when
`protocolNumber > largestIanaProtoNameIndex`, otherwise indexes the
256-element array. Indexing at 256 is a Go index-out-of-range panic,
modelled as `none`. -/
def IanaProtocolNumberToName (protocolNumber : Nat) : Option String :=
  if protocolNumber > largestIanaProtoNameIndex then some ""
  else if protocolNumber < ianaArrayLength then
    some (IanaProtocolNumberNames protocolNumber)
  else none

/-! ## The protomap segment (`Protomap.Run` body, per record) -/

/-- One iteration of `Protomap.Run` (part_000 lines 28-36): look up the
protocol name, substitute "UNKNOWN" for the empty string, set `ProtoName`.
`none` models a panic inside the lookup. -/
def protomapRunOne (msg : Flow) : Option Flow :=
  (IanaProtocolNumberToName msg.Proto).map fun proto =>
    { msg with ProtoName := if proto = "" then "UNKNOWN" else proto }

/-- `Protomap.Run` over a whole input stream: each record is processed in
order; a panic aborts the segment. -/
def protomapRun : List Flow → Option (List Flow)
  | [] => some []
  | msg :: rest =>
    match protomapRunOne msg with
    | none => none
    | some msg' => (protomapRun rest).map (msg' :: ·)

/-! ## Lumberjack `New`: numeric option parsing -/

/-- Durations in nanoseconds, as Go `time.Duration` (int64). -/
def millisecond : Int := 1000000

def second : Int := 1000000000

def minute : Int := 60 * second

/-- `defaultTimeout = 5 * time.Second` (part_004 line 89). -/
def defaultTimeout : Int := 5 * second

/-- `minimalBatchTimeout = 50 * time.Millisecond` (part_004 line 90). -/
def minimalBatchTimeout : Int := 50 * millisecond

/-- `defaultBatchSize = 64` (part_004 line 88). -/
def defaultBatchSize : Int := 64

/-- The clamping applied by `Lumberjack.New` to a successfully parsed
`batchtimeout` duration `d` (part_004 lines 227-242): the parsed value
replaces the default, then values below `minimalBatchTimeout` and values
above `time.Minute` are each replaced by `defaultTimeout`. -/
def lumberjackClampBatchTimeout (d : Int) : Int :=
  let t := d
  let t := if t < minimalBatchTimeout then defaultTimeout else t
  if t > minute then defaultTimeout else t

/-- Decimal digit run to a natural number. -/
def digitsToNat (l : List Char) : Nat :=
  l.foldl (fun acc c => acc * 10 + (c.toNat - 48)) 0

/-- Go `strconv.Atoi`: optional sign, then a non-empty digit run; must fit
in int64. `none` is a parse error. -/
def goAtoi (s : String) : Option Int :=
  let fits : Int → Option Int := fun v =>
    if -(2 ^ 63) ≤ v ∧ v < 2 ^ 63 then some v else none
  match s.data with
  | [] => none
  | '-' :: rest =>
    if rest ≠ [] ∧ rest.all Char.isDigit then fits (-(digitsToNat rest : Int)) else none
  | '+' :: rest =>
    if rest ≠ [] ∧ rest.all Char.isDigit then fits ((digitsToNat rest : Int)) else none
  | l => if l.all Char.isDigit then fits ((digitsToNat l : Int)) else none

/-- Go `strconv.ParseUint(s, 10, bitSize)`: non-empty digit run, no sign,
value below `2 ^ bitSize`. -/
def goParseUint (s : String) (bitSize : Nat) : Option Nat :=
  match s.data with
  | [] => none
  | l =>
    if l.all Char.isDigit then
      let n := digitsToNat l
      if n < 2 ^ bitSize then some n else none
    else none

/-- `Lumberjack.New`'s handling of the `batchsize` option (part_004 lines
216-225): empty config keeps the default 64; otherwise underscores are
stripped and the string is parsed with `Atoi` (parse failure is fatal,
`none`); only a negative parsed value is replaced by the default. -/
def stripUnderscores (s : String) : String :=
  String.mk (s.data.filter fun c => c ≠ '_')

def lumberjackBatchSizeOf (cfg : String) : Option Int :=
  let parsed := if cfg = "" then some defaultBatchSize else goAtoi (stripUnderscores cfg)
  parsed.map fun v => if v < 0 then defaultBatchSize else v

/-! ## Lumberjack `Run`: the main forwarding loop -/

/-- The main loop of `Lumberjack.Run` (part_004 lines 399-402):
`for msg := range segment.In { segment.LumberjackOut <- msg; segment.Out <- msg }`.
Returns (sequence of values enqueued on the internal queue, sequence of
values sent on `out`), in send order. -/
def lumberjackMainLoop : List Flow → List Flow × List Flow
  | [] => ([], [])
  | msg :: rest =>
    let (q, o) := lumberjackMainLoop rest
    (msg :: q, msg :: o)

/-! ## The goflow segment: `New` validation -/

/-- A parsed listen URL, at the granularity `Goflow.New` inspects it:
`url.Parse` has succeeded and yielded a scheme and a port string. -/
structure GoURL where
  scheme : String
  port : String
  deriving Repr, DecidableEq

/-- Scheme check of `Goflow.New` (part_005 lines 75-81). -/
def goflowSupportedScheme (s : String) : Bool :=
  s = "netflow" || s = "sflow" || s = "nfl"

/-- A listen URL passes `Goflow.New`'s per-URL checks: its port parses with
`strconv.ParseUint(_, 10, 64)` and its scheme is supported. -/
def goflowValidURL (u : GoURL) : Bool :=
  (goParseUint u.port 64).isSome && goflowSupportedScheme u.scheme

/-- The per-URL validation loop of `Goflow.New` (part_005 lines 62-84):
the first URL with an unparseable port or unsupported scheme aborts with
`nil` (`none`); otherwise all URLs are collected. -/
def goflowNewURLs : List GoURL → Option (List GoURL)
  | [] => some []
  | u :: rest =>
    if (goParseUint u.port 64).isNone then none
    else if goflowSupportedScheme u.scheme then (goflowNewURLs rest).map (u :: ·)
    else none

/-- The `workers` option handling of `Goflow.New` (part_005 lines 87-100):
empty means default 1; a value parsing (`ParseUint(_, 10, 32)`) to 0 is a
fatal error (`none`); a parse failure logs and keeps the default 1. -/
def goflowNewWorkers (cfg : String) : Option Nat :=
  if cfg = "" then some 1
  else
    match goParseUint cfg 32 with
    | some 0 => none
    | some n => some n
    | none => some 1

/-- The fields of a constructed `Goflow` instance that `New` populates from
the options the claims concern. -/
structure Goflow where
  Listen : List GoURL
  Workers : Nat
  deriving Repr, DecidableEq

/-- `Goflow.New` (part_005 lines 54-107) over an already-split,
`url.Parse`-accepted listen list and the raw `workers` option string:
`none` is the `nil` sentinel. -/
def goflowNew (listen : List GoURL) (workersCfg : String) : Option Goflow :=
  match goflowNewURLs listen with
  | none => none
  | some ls => (goflowNewWorkers workersCfg).map fun w => { Listen := ls, Workers := w }

/-! ## The goflow segment: `Run` select loop -/

/-- Values travelling on the `out` channel are Go pointers:
`none` is the nil pointer (the zero value of `*pb.EnrichedFlow`). -/
abbrev GoflowOutValue := Option Flow

/-- The events one iteration of the `Goflow.Run` select loop can observe
(part_005 lines 116-133). -/
inductive GoflowRunEvent where
  | fromGoflow (msg : Flow)
  | goflowClosed
  | fromIn (msg : Flow)
  | inClosed
  deriving Repr, DecidableEq

/-- State of `Goflow.Run` between iterations: whether `segment.goflow_in`
has been set to `nil` (disabling its select case). -/
structure GoflowRunState where
  goflowInNil : Bool
  deriving Repr, DecidableEq

/-- Result of one iteration of the select loop: either the loop continues
with a new state after sending the listed values on `out`, or `Run`
returns (the `in`-closed case). -/
inductive GoflowStepResult where
  | next (sent : List GoflowOutValue) (s : GoflowRunState)
  | returned
  deriving Repr, DecidableEq

/-- One iteration of the `Goflow.Run` select loop (part_005 lines 116-133).
`none` means the event is not enabled in this state (a nil channel's case
never fires). On `goflowClosed` the received zero value `msg = nil` still
reaches `segment.Out <- msg`, so the nil pointer is sent. -/
def goflowRunStep (s : GoflowRunState) : GoflowRunEvent → Option GoflowStepResult
  | .fromGoflow m => if s.goflowInNil then none else some (.next [some m] s)
  | .goflowClosed =>
    if s.goflowInNil then none
    else some (.next [none] { goflowInNil := true })
  | .fromIn m => some (.next [some m] s)
  | .inClosed => some .returned

/-! ## The Lumberjack worker goroutine (part_004 lines 320-394)

A `time.Timer` is modelled by whether it is armed (`running`) and whether an
expiry value sits undrained in its channel (`fired`). `Stop` returns whether
the timer was armed and disarms it without draining; `Reset` arms it;
expiry is an environment event turning `running` into `fired`; receiving
from `timer.C` requires `fired` and clears it. -/

structure GoTimer where
  running : Bool
  fired : Bool
  deriving Repr, DecidableEq

/-- Local state of one worker goroutine: the buffer write index `idx`, the
program variable `timerSet`, and the timer. -/
structure WorkerState where
  idx : Nat
  timerSet : Bool
  timer : GoTimer
  deriving Repr, DecidableEq

/-- Worker start (part_004 lines 327-334): `idx = 0`;
`timer := time.NewTimer(BatchTimeout); timer.Stop()` leaves the timer
disarmed with nothing in its channel; `timerSet` is false. -/
def initialWorkerState : WorkerState :=
  { idx := 0, timerSet := false, timer := { running := false, fired := false } }

/-- Events driving the worker loop. `recv` is a flow dequeued from the open
internal queue; `timerExpire` is the armed timer expiring; `timerChanRecv`
is the select taking the `<-timer.C` case. Queue closure is handled by
`runWorker` as the end of the trace. -/
inductive WorkerEvent where
  | recv
  | timerExpire
  | timerChanRecv
  deriving Repr, DecidableEq

/-- Observable effects of the worker loop body. `store i` is the write
`flowInterface[idx] = …` at index `i`; `sendFull` is
`client.Send(flowInterface)`; `sendPartial n` is
`client.Send(flowInterface[:n])` from the expiry branch; `emptyTimerLog` is
the debug log when the timer fires on an empty buffer; `finalNoRetry n` is
`client.SendNoRetry(flowInterface[:n])` on queue closure; `wgDone` is a
`wg.Done()` call on the shared barrier passed to `Run`. -/
inductive WorkerEffect where
  | store (i : Nat)
  | sendFull
  | sendPartial (n : Nat)
  | emptyTimerLog
  | finalNoRetry (n : Nat)
  | wgDone
  deriving Repr, DecidableEq

/-- Outcome of one loop body execution. `panicOOB i` is the Go
index-out-of-range panic from storing at `i` into a buffer of length
`BatchSize`; `notEnabled` marks an event impossible in this state (timer
not armed / channel value absent, or a blocking drain). -/
inductive StepOut where
  | ok (s : WorkerState) (effs : List WorkerEffect)
  | panicOOB (i : Nat)
  | notEnabled
  deriving Repr, DecidableEq

/-- Tail of the full-batch path (part_004 lines 357-379), after the
stop-and-drain decision left the timer in state `t`: send the full batch,
reset `idx`, and — `timerSet` being false on every path reaching here —
reset the timer and set `timerSet`. -/
def fullBatchFinish (t : GoTimer) (storeEff : WorkerEffect) : StepOut :=
  .ok { idx := 0, timerSet := true, timer := { t with running := true } }
    [storeEff, .sendFull]

/-- One execution of the worker loop body (part_004 lines 336-393) on
event `e`. -/
def workerStep (batchSize : Nat) (s : WorkerState) : WorkerEvent → StepOut
  | .recv =>
    if s.idx < batchSize then
      let storeEff := WorkerEffect.store s.idx
      let idx1 := s.idx + 1
      if idx1 = batchSize then
        if s.timerSet then
          let wasRunning := s.timer.running
          let t1 : GoTimer := { s.timer with running := false }
          if wasRunning then fullBatchFinish t1 storeEff
          else if t1.fired then fullBatchFinish { t1 with fired := false } storeEff
          else .notEnabled
        else fullBatchFinish s.timer storeEff
      else .ok { s with idx := idx1 } [storeEff]
    else .panicOOB s.idx
  | .timerExpire =>
    if s.timer.running then
      .ok { s with timer := { running := false, fired := true } } []
    else .notEnabled
  | .timerChanRecv =>
    if s.timer.fired then
      if s.idx > 0 then
        .ok { idx := 0, timerSet := true, timer := { running := true, fired := false } }
          [.sendPartial s.idx]
      else
        .ok { s with timerSet := true, timer := { running := true, fired := false } }
          [.emptyTimerLog]
    else .notEnabled

/-- Outcome of a whole worker run: the trace was processed and then the
queue was observed closed (`done effs`, ending in the final non-retrying
send and the worker's `wg.Done()`), a panic occurred, or the trace asked
for an event that was not enabled. -/
inductive RunOut where
  | done (effs : List WorkerEffect)
  | panicOOB (i : Nat)
  | invalid
  deriving Repr, DecidableEq

/-- Run the worker loop from state `s` over an event trace, then observe
queue closure (part_004 lines 340-349: `SendNoRetry(flowInterface[:idx])`,
`wg.Done()`, `return`). -/
def runWorker (batchSize : Nat) : WorkerState → List WorkerEvent → RunOut
  | s, [] => .done [.finalNoRetry s.idx, .wgDone]
  | s, e :: rest =>
    match workerStep batchSize s e with
    | .ok s' effs =>
      match runWorker batchSize s' rest with
      | .done more => .done (effs ++ more)
      | .panicOOB i => .panicOOB i
      | .invalid => .invalid
    | .panicOOB i => .panicOOB i
    | .notEnabled => .invalid

/-- Number of `wg.Done()` calls in an effect list. -/
def countWgDone (effs : List WorkerEffect) : Nat :=
  effs.countP fun e => e = WorkerEffect.wgDone

/-- Number of final non-retrying sends in an effect list. -/
def countFinalNoRetry (effs : List WorkerEffect) : Nat :=
  effs.countP fun e => match e with | WorkerEffect.finalNoRetry _ => true | _ => false

/-- Run-level accounting of `Lumberjack.Run` (part_004 lines 293-404) for a
set of workers given by their dequeue traces, on a run where `in` is
eventually closed: the main loop ends, `close(segment.LumberjackOut)` runs,
every worker drains to closure, and the deferred function closes `out` once
and calls `wg.Done()` once more. Returns `none` unless every worker
completes normally. -/
structure LumberjackRunAccounting where
  outCloses : Nat
  barrierDones : Nat
  finalNoRetrySends : Nat
  deriving Repr, DecidableEq

/-- Accounting for `Lumberjack.Run`: `out` is closed once by the deferred
function; the barrier receives the deferred `wg.Done()` plus every
`wg.Done()` a worker issued; each worker's final non-retrying sends are
summed. -/
def lumberjackRunAccounting (batchSize : Nat) (workerTraces : List (List WorkerEvent)) :
    Option LumberjackRunAccounting :=
  let outs := workerTraces.map (runWorker batchSize initialWorkerState)
  if outs.all (fun o => match o with | .done _ => true | _ => false) then
    some
      { outCloses := 1
        barrierDones :=
          1 + (outs.map (fun o => match o with | .done effs => countWgDone effs | _ => 0)).sum
        finalNoRetrySends :=
          (outs.map (fun o => match o with | .done effs => countFinalNoRetry effs | _ => 0)).sum }
  else none

/-- All `store` effects in a list are strictly below the buffer length. -/
def storesInBounds (batchSize : Nat) (effs : List WorkerEffect) : Bool :=
  effs.all fun e => match e with
    | WorkerEffect.store i => decide (i < batchSize)
    | _ => true

/-- A run outcome has only in-bounds stores and no out-of-bounds panic. -/
def RunOut.safeStores (batchSize : Nat) : RunOut → Bool
  | .done effs => storesInBounds batchSize effs
  | .panicOOB _ => false
  | .invalid => true

/-! ## The Lumberjack ECS event document (part_004 lines 498-509) and its
Go `encoding/json` behaviour -/

/-- A JSON value, as far as the ECS event object needs. -/
inductive JValue where
  | str (s : String)
  | num (n : Int)
  | arr (l : List JValue)
  deriving Repr

/-- The `ECSEvent` struct (part_004 lines 498-509). `Type'` stands for the
Go field `Type`. `Start` and `End` are uint64 milliseconds; `Created` and
`Duration` are int64. -/
structure ECSEvent where
  Kind : String
  Category : List String
  Type' : List String
  Outcome : String
  Created : Int
  Start : Nat
  End : Nat
  Duration : Int
  Provider : String
  Module : String
  deriving Repr, DecidableEq

/-- The `json:"…"` tag names of `ECSEvent`'s fields in declaration order
(part_004 lines 499-508): `Start` and `End` both carry the tag `end`. -/
def ecsEventJSONTags : List String :=
  ["kind", "category", "type", "outcome", "created", "end", "end", "duration",
   "provider", "module"]

/-- Go `encoding/json` name-conflict rule: fields whose effective JSON name
occurs more than once at the same nesting depth are all dropped, for
encoding and decoding alike. -/
def tagVisible (tag : String) : Bool :=
  ecsEventJSONTags.count tag = 1

/-- Emit one struct field: present in the object only when its tag is
unambiguous and (all tags carry `omitempty`) the value is not empty. -/
def emitField (tag : String) (v : JValue) (isEmpty : Bool) : List (String × JValue) :=
  if tagVisible tag && !isEmpty then [(tag, v)] else []

/-- Go `json.Marshal` of an `ECSEvent`, as the ordered key/value list of the
resulting object. -/
def marshalECSEvent (e : ECSEvent) : List (String × JValue) :=
  emitField "kind" (.str e.Kind) (e.Kind = "")
  ++ emitField "category" (.arr (e.Category.map .str)) (e.Category = [])
  ++ emitField "type" (.arr (e.Type'.map .str)) (e.Type' = [])
  ++ emitField "outcome" (.str e.Outcome) (e.Outcome = "")
  ++ emitField "created" (.num e.Created) (e.Created = 0)
  ++ emitField "end" (.num (e.Start : Int)) (e.Start = 0)
  ++ emitField "end" (.num (e.End : Int)) (e.End = 0)
  ++ emitField "duration" (.num e.Duration) (e.Duration = 0)
  ++ emitField "provider" (.str e.Provider) (e.Provider = "")
  ++ emitField "module" (.str e.Module) (e.Module = "")

/-- Decode helper: the string for a field with the given tag (zero value
when the tag is ambiguous, the key is absent, or the value has the wrong
shape). -/
def decodeStr (obj : List (String × JValue)) (tag : String) : String :=
  if tagVisible tag then
    match obj.find? (fun kv => kv.1 = tag) with
    | some (_, .str s) => s
    | _ => ""
  else ""

/-- Decode helper for string arrays. -/
def decodeStrArr (obj : List (String × JValue)) (tag : String) : List String :=
  if tagVisible tag then
    match obj.find? (fun kv => kv.1 = tag) with
    | some (_, .arr l) => l.filterMap fun v => match v with | .str s => some s | _ => none
    | _ => []
  else []

/-- Decode helper for signed numbers. -/
def decodeInt (obj : List (String × JValue)) (tag : String) : Int :=
  if tagVisible tag then
    match obj.find? (fun kv => kv.1 = tag) with
    | some (_, .num n) => n
    | _ => 0
  else 0

/-- Decode helper for unsigned numbers. -/
def decodeUint (obj : List (String × JValue)) (tag : String) : Nat :=
  (decodeInt obj tag).toNat

/-- Go `json.Unmarshal` of an object into a fresh `ECSEvent`: each field is
filled from the key naming its unambiguous tag; fields with ambiguous tags
are ignored and keep their zero value. -/
def unmarshalECSEvent (obj : List (String × JValue)) : ECSEvent :=
  { Kind := decodeStr obj "kind"
    Category := decodeStrArr obj "category"
    Type' := decodeStrArr obj "type"
    Outcome := decodeStr obj "outcome"
    Created := decodeInt obj "created"
    Start := decodeUint obj "end"
    End := decodeUint obj "end"
    Duration := decodeInt obj "duration"
    Provider := decodeStr obj "provider"
    Module := decodeStr obj "module" }

/-- Wrapping uint64 subtraction `a - b` (operands reduced mod 2^64). -/
def sub64 (a b : Nat) : Nat :=
  (a % 2 ^ 64 + (2 ^ 64 - b % 2 ^ 64)) % 2 ^ 64

/-- Reinterpret a uint64 bit pattern as int64 (Go `int64(x)`). -/
def toInt64 (n : Nat) : Int :=
  if n % 2 ^ 64 < 2 ^ 63 then (n % 2 ^ 64 : Int) else (n % 2 ^ 64 : Int) - 2 ^ 64

/-- The `Event` block built by `ECSFromEnrichedFlow` (resolveips.go /
part_004's ecs.go, lines 248-262 of the cited file): `Start`/`End` are the
flow start/end in milliseconds, `Duration` is
`int64(GetTimeFlowEndNs() - GetTimeFlowStartNs())` (uint64 subtraction then
reinterpretation), `Created` is the current wall clock in milliseconds
(passed in as `now`). -/
def ecsEventFromFlow (now : Int) (f : Flow) : ECSEvent :=
  { Kind := "event"
    Category := ["network"]
    Type' := ["connection"]
    Outcome := "success"
    Created := now
    Start := f.TimeFlowStartMs
    End := f.TimeFlowEndMs
    Duration := toInt64 (sub64 f.TimeFlowEndNs f.TimeFlowStartNs)
    Provider := "flowpipeline"
    Module := "lumberjack" }

/-- Consistency of the worker's timer bookkeeping: an armed or fired timer
is always program-tracked (`timerSet`), a tracked timer is armed or fired,
and the timer is never armed with an undrained expiry pending. This holds
initially and is preserved by every loop body, and it discharges the
hypotheses of the stop-and-drain theorem in every reachable state. -/
def timerInv (s : WorkerState) : Bool :=
  (!s.timer.running || s.timerSet) && (!s.timer.fired || s.timerSet) &&
    !(s.timer.running && s.timer.fired) && (!s.timerSet || (s.timer.running || s.timer.fired))

/-- A fully-populated flow for the ECS round-trip check: start 1000 ms /
10^12 ns, end 2000 ms / 2·10^12 ns. -/
def c4Flow : Flow :=
  { TimeFlowStartMs := 1000, TimeFlowEndMs := 2000,
    TimeFlowStartNs := 1000000000000, TimeFlowEndNs := 2000000000000 }

/-! ## Claim theorems -/

/-- C1: For the Lumberjack segment, on a run where `in` is eventually
closed, `Run` does close `out` exactly once and each worker issues exactly
one final non-retrying send of its buffered tail — but the shared barrier
is signalled once by `Run`'s deferred function AND once more by every
worker (part_004 line 348), so for the minimal accepted configuration (one
server, one worker, no input flows) the one `Add` is answered by TWO `Done`
calls, not one: the code violates the claimed teardown invariant. -/
theorem lumberjack_barrier_double_done :
    lumberjackRunAccounting 64 [[]] =
      some { outCloses := 1, barrierDones := 2, finalNoRetrySends := 1 } :=
  rfl

/-- C2: Contrary to the claim, appending a record to an empty local buffer
does NOT start the batch timer. From the worker's initial state (the timer
was created and immediately stopped, part_004 lines 331-334), receiving one
record (with the default batch size 64) stores it and leaves `timerSet`
false and the timer unarmed, and in the resulting state a timer expiry is
impossible — the partially filled batch cannot be flushed by timeout. -/
theorem lumberjack_first_record_timer_unarmed :
    workerStep 64 initialWorkerState .recv =
      .ok { idx := 1, timerSet := false, timer := { running := false, fired := false } }
        [.store 0] ∧
    workerStep 64 { idx := 1, timerSet := false, timer := { running := false, fired := false } }
        .timerExpire = .notEnabled :=
  ⟨rfl, rfl⟩

/-- C3: For the protomap segment, in-table protocol numbers map to the
IANA entry (the description column when the name column is empty), absent
numbers and numbers above 256 map to "UNKNOWN" — but protocol number 256
makes `IanaProtocolNumberToName` index its 256-element array out of range
(the guard only rejects values strictly above 256), a Go panic, so 256 is
NOT handled without failure. -/
theorem protomap_proto256_panics :
    protomapRunOne { Proto := 256 } = none ∧
    protomapRunOne { Proto := 0 } = some { Proto := 0, ProtoName := "HOPOPT" } ∧
    protomapRunOne { Proto := 6 } = some { Proto := 6, ProtoName := "TCP" } ∧
    protomapRunOne { Proto := 68 } =
      some { Proto := 68, ProtoName := "any distributed file system" } ∧
    protomapRunOne { Proto := 255 } = some { Proto := 255, ProtoName := "Reserved" } ∧
    protomapRunOne { Proto := 222 } = some { Proto := 222, ProtoName := "UNKNOWN" } ∧
    protomapRunOne { Proto := 257 } = some { Proto := 257, ProtoName := "UNKNOWN" } := by
  refine ⟨rfl, ?_, ?_, ?_, ?_, ?_, ?_⟩ <;> rfl

/-- C4: Contrary to the claim, the ECS document does not carry
`event.start` and `event.end` as two distinct JSON fields: both `Start`
and `End` are tagged `json:"end"` (part_004 lines 504-505), so Go's
encoder drops both conflicting fields — the marshalled event object for a
flow with start 1000 ms and end 2000 ms contains neither an "end" nor a
"start" key, and round-tripping yields `Start = End = 0` instead of the
original values (the duration field alone survives). -/
theorem ecs_event_start_end_dropped :
    (marshalECSEvent (ecsEventFromFlow 0 c4Flow)).all
        (fun kv => !(kv.1 == "end" || kv.1 == "start")) = true ∧
    (unmarshalECSEvent (marshalECSEvent (ecsEventFromFlow 0 c4Flow))).Start = 0 ∧
    (unmarshalECSEvent (marshalECSEvent (ecsEventFromFlow 0 c4Flow))).End = 0 ∧
    (ecsEventFromFlow 0 c4Flow).Start = 1000 ∧
    (ecsEventFromFlow 0 c4Flow).End = 2000 ∧
    (ecsEventFromFlow 0 c4Flow).Duration = 1000000000000 := by
  refine ⟨?_, rfl, rfl, rfl, rfl, rfl⟩ ; rfl

/-- C6: Every record received on `in` by `Lumberjack.Run`'s main loop is
enqueued exactly once, unchanged, into the internal queue and forwarded
exactly once, unchanged, on `out`, both in FIFO order: the two produced
sequences equal the input sequence. -/
theorem lumberjack_forwards_unchanged (input : List Flow) :
    lumberjackMainLoop input = (input, input) := by
  induction input with
  | nil => rfl
  | cons f rest ih => simp [lumberjackMainLoop, ih]

/-- C7: For every parsed `batchtimeout` duration `d`, `Lumberjack.New`
keeps `d` exactly when 50 ms ≤ `d` ≤ 60 s and otherwise replaces it with
the 5 s default. -/
theorem lumberjack_batchtimeout_clamp (d : Int) :
    lumberjackClampBatchTimeout d =
      if minimalBatchTimeout ≤ d ∧ d ≤ minute then d else defaultTimeout := by
  simp only [lumberjackClampBatchTimeout, minimalBatchTimeout, minute, defaultTimeout,
    second, millisecond]
  split_ifs <;> omega

/-- C9: Contrary to the claim, observing the internal decoder channel
closed DOES cause a nil record to be sent on `out`: the `ok == false`
branch of `Goflow.Run` sets `goflow_in` to nil but falls through to
`segment.Out <- msg` with `msg` the nil zero value received from the
closed channel. -/
theorem goflow_closed_sends_nil :
    goflowRunStep { goflowInNil := false } .goflowClosed =
      some (.next [none] { goflowInNil := true }) :=
  rfl

/-- Helper: `goflowNewURLs` rejects exactly the lists containing an invalid
URL. -/
theorem goflowNewURLs_eq_none_iff (l : List GoURL) :
    goflowNewURLs l = none ↔ ∃ u ∈ l, goflowValidURL u = false := by
  induction l with
  | nil => simp [goflowNewURLs]
  | cons u rest ih =>
    simp only [goflowNewURLs]
    cases hp : (goParseUint u.port 64).isNone with
    | true =>
      simp only [hp, if_true]
      constructor
      · intro _
        exact ⟨u, List.mem_cons_self u rest, by simp [goflowValidURL, Option.isNone_iff_eq_none.mp hp]⟩
      · intro _; trivial
    | false =>
      simp only [hp, Bool.false_eq_true, if_false]
      cases hs : goflowSupportedScheme u.scheme with
      | true =>
        simp only [hs, if_true, Option.map_eq_none', ih]
        constructor
        · intro ⟨v, hv, hvf⟩; exact ⟨v, List.mem_cons_of_mem u hv, hvf⟩
        · intro ⟨v, hv, hvf⟩
          rcases List.mem_cons.mp hv with rfl | hv'
          · exfalso
            have : goflowValidURL v = true := by
              simp [goflowValidURL, hs, Option.isSome_iff_ne_none]
              intro hn; rw [hn] at hp; simp at hp
            simp [this] at hvf
          · exact ⟨v, hv', hvf⟩
      | false =>
        simp only [hs, Bool.false_eq_true, if_false, true_iff]
        exact ⟨u, List.mem_cons_self u rest, by simp [goflowValidURL, hs]⟩

/-- Helper: `goflowNewWorkers` rejects exactly a non-empty `workers` option
parsing to 0. -/
theorem goflowNewWorkers_eq_none_iff (cfg : String) :
    goflowNewWorkers cfg = none ↔ cfg ≠ "" ∧ goParseUint cfg 32 = some 0 := by
  unfold goflowNewWorkers
  by_cases h : cfg = ""
  · simp [h]
  · simp only [h, if_false, ne_eq, not_false_iff, true_and]
    rcases hp : goParseUint cfg 32 with _ | n
    · simp [hp]
    · cases n with
      | zero => simp [hp]
      | succ m => simp [hp]

/-- C8 (amended): `Goflow.New` returns the nil sentinel exactly when some
listen URL has an unparseable port or an unsupported scheme, or the
`workers` option is non-empty and parses to 0; it returns a non-nil
instance in every other case. -/
theorem goflow_new_none_iff (listen : List GoURL) (workersCfg : String) :
    goflowNew listen workersCfg = none ↔
      (∃ u ∈ listen, goflowValidURL u = false) ∨
      (workersCfg ≠ "" ∧ goParseUint workersCfg 32 = some 0) := by
  unfold goflowNew
  rcases hu : goflowNewURLs listen with _ | ls
  · simp [(goflowNewURLs_eq_none_iff listen).mp hu]
  · have hnone : ¬∃ u ∈ listen, goflowValidURL u = false := by
      rw [← goflowNewURLs_eq_none_iff]; simp [hu]
    simp [hnone, Option.map_eq_none', goflowNewWorkers_eq_none_iff]

/-- C8 (counterexample to the claim as stated): the configuration with the
single listen URL `sflow://:6343` — whose port parses and whose scheme is
supported — and `workers = "0"` makes `New` return nil, refuting "New
returns a non-nil instance for every configuration whose listen URLs all
parse with a supported scheme and valid port". -/
theorem goflow_workers_zero_cex :
    goflowValidURL { scheme := "sflow", port := "6343" } = true ∧
    goflowNew [{ scheme := "sflow", port := "6343" }] "0" = none := by
  exact ⟨by decide, by decide⟩

/-- C5: In the worker's batching loop, when the buffer reaches `batchsize`
with the timer program-armed (`timerSet`), the timer is stopped and a
pending expiry is drained before the reset: the resulting state always has
the timer armed with an empty expiry channel, so no phantom expiry
survives into the next cycle; and when the timer fires with the buffer
empty, the worker emits only the debug log — no send — and re-arms the
timer. (`hactive`/`hconsist` say the armed timer has not yet been reset
over an undrained expiry, which holds in every reachable state.) -/
theorem lumberjack_stop_and_drain (batchSize : Nat) (s t : WorkerState)
    (hfull : s.idx + 1 = batchSize)
    (hset : s.timerSet = true)
    (hactive : s.timer.running = true ∨ s.timer.fired = true)
    (hconsist : ¬(s.timer.running = true ∧ s.timer.fired = true))
    (ht0 : t.idx = 0)
    (htf : t.timer.fired = true) :
    workerStep batchSize s .recv =
      .ok { idx := 0, timerSet := true, timer := { running := true, fired := false } }
        [.store s.idx, .sendFull] ∧
    workerStep batchSize t .timerChanRecv =
      .ok { t with timerSet := true, timer := { running := true, fired := false } }
        [.emptyTimerLog] := by
  constructor
  · have hlt : s.idx < batchSize := by omega
    obtain ⟨idx, tset, ⟨trun, tfired⟩⟩ := s
    simp only at hset hfull hactive hconsist hlt ⊢
    subst hset
    cases trun <;> cases tfired <;>
      simp_all [workerStep, fullBatchFinish, hlt, hfull]
  · obtain ⟨idx, tset, ⟨trun, tfired⟩⟩ := t
    simp only at ht0 htf ⊢
    subst ht0; subst htf
    simp [workerStep]

/-- Helper: the timer bookkeeping invariant holds at worker start. -/
theorem timerInv_initial : timerInv initialWorkerState = true := rfl

/-- Helper: the timer bookkeeping invariant is preserved by every worker
loop body, so it holds in every reachable state. -/
theorem timerInv_step (batchSize : Nat) (s s' : WorkerState) (effs : List WorkerEffect)
    (e : WorkerEvent) (hinv : timerInv s = true)
    (hstep : workerStep batchSize s e = .ok s' effs) :
    timerInv s' = true := by
  obtain ⟨idx, tset, ⟨trun, tfired⟩⟩ := s
  cases e <;> simp only [workerStep] at hstep <;> split_ifs at hstep <;>
    (simp only [fullBatchFinish, StepOut.ok.injEq] at hstep
     obtain ⟨h1, h2⟩ := hstep
     subst h1
     simp_all [timerInv])

/-- C5 witness: the stop-and-drain theorem applied at batch size 1 and the
state whose timer has fired but is undrained (the phantom-expiry
scenario). -/
theorem lumberjack_stop_and_drain_witness :
    workerStep 1 ⟨0, true, ⟨false, true⟩⟩ .recv =
      .ok ⟨0, true, ⟨true, false⟩⟩ [.store 0, .sendFull] ∧
    workerStep 1 ⟨0, true, ⟨false, true⟩⟩ .timerChanRecv =
      .ok ⟨0, true, ⟨true, false⟩⟩ [.emptyTimerLog] :=
  lumberjack_stop_and_drain 1 ⟨0, true, ⟨false, true⟩⟩ ⟨0, true, ⟨false, true⟩⟩
    rfl rfl (Or.inr rfl) (by decide) rfl rfl

/-- Helper: with a positive batch size and the write index in bounds, one
worker loop body never panics, keeps the index in bounds, and only emits
in-bounds stores. -/
theorem workerStep_preserves_bounds (batchSize : Nat) (s : WorkerState)
    (hidx : s.idx < batchSize) (e : WorkerEvent) :
    (∀ i, workerStep batchSize s e ≠ .panicOOB i) ∧
    (∀ s' effs, workerStep batchSize s e = .ok s' effs →
      s'.idx < batchSize ∧ storesInBounds batchSize effs = true) := by
  cases e with
  | recv =>
    unfold workerStep
    rw [if_pos hidx]
    by_cases hfull : s.idx + 1 = batchSize
    · rw [if_pos hfull]
      cases hset : s.timerSet <;> cases hrun : s.timer.running <;>
        cases hfired : s.timer.fired <;>
        (simp_all [fullBatchFinish, storesInBounds]; try omega)
    · rw [if_neg hfull]
      constructor
      · intro i h; simp at h
      · intro s' effs h
        simp only [StepOut.ok.injEq] at h
        obtain ⟨hs', heffs⟩ := h
        subst hs'; subst heffs
        simp [storesInBounds, hidx]
        omega
  | timerExpire =>
    unfold workerStep
    cases hrun : s.timer.running <;> simp_all [storesInBounds]
  | timerChanRecv =>
    unfold workerStep
    cases hfired : s.timer.fired <;>
      by_cases hpos : s.idx > 0 <;>
      (simp_all [storesInBounds]; try omega)

/-- Helper: a worker run started with its index in bounds never stores out
of bounds and never panics. -/
theorem runWorker_safeStores (batchSize : Nat) (s : WorkerState)
    (hidx : s.idx < batchSize) (trace : List WorkerEvent) :
    (runWorker batchSize s trace).safeStores batchSize = true := by
  induction trace generalizing s with
  | nil => simp [runWorker, RunOut.safeStores, storesInBounds]
  | cons e rest ih =>
    have hstep := workerStep_preserves_bounds batchSize s hidx e
    cases h : workerStep batchSize s e with
    | ok s' effs =>
      have hbounds := hstep.2 s' effs h
      have hrest := ih s' hbounds.1
      cases hr : runWorker batchSize s' rest with
      | done effs2 =>
        simp_all [runWorker, RunOut.safeStores, storesInBounds, List.all_append]
      | panicOOB i2 => simp_all [runWorker, RunOut.safeStores]
      | invalid => simp [runWorker, h, hr, RunOut.safeStores]
    | panicOOB i => exact absurd h (hstep.1 i)
    | notEnabled => simp [runWorker, h, RunOut.safeStores]

/-- C10 (amended): for every configuration with `BatchSize ≥ 1` — all
defaults and all non-negative non-zero parsed values — every store the
worker performs into its fixed-capacity buffer is at an index strictly
below `BatchSize`, over every possible event trace, and no
index-out-of-range panic occurs. (`batchsize = 0` is excluded: New accepts
it and the first store then panics, see the counterexample.) -/
theorem lumberjack_store_in_bounds (batchSize : Nat) (h : 0 < batchSize)
    (trace : List WorkerEvent) :
    (runWorker batchSize initialWorkerState trace).safeStores batchSize = true :=
  runWorker_safeStores batchSize initialWorkerState h trace

/-- C10 witness: batch size 1 with a two-record trace. -/
theorem lumberjack_store_in_bounds_witness :
    0 < 1 ∧ (runWorker 1 initialWorkerState [.recv, .recv]).safeStores 1 = true :=
  ⟨Nat.one_pos, lumberjack_store_in_bounds 1 Nat.one_pos [.recv, .recv]⟩

/-- C10 (counterexample to the claim as stated): `New` accepts
`batchsize = "0"` (only negative values are replaced by the default 64),
and with `BatchSize = 0` the very first received record is stored at index
0 into a zero-length buffer — an index-out-of-range panic, refuting "the
write index is always strictly less than the configured BatchSize". -/
theorem lumberjack_batchsize_zero_oob :
    lumberjackBatchSizeOf "0" = some 0 ∧
    runWorker 0 initialWorkerState [.recv] = .panicOOB 0 := by
  exact ⟨by decide, by decide⟩

end Flowpipeline
